import Mathlib

/-!
Verification development for the FranzCode language front end.

The definitions below are a shallow embedding of the repository sources:
  - `src/lexer.py`   (token types, keyword table, `Lexer.tokenize`)
  - `src/parser.py`  (recursive-descent `Parser`)
  - `src/ast_nodes.py` (AST dataclasses)
  - `src/main.py`    (`compile_source`, `_print_ast`, REPL `.vars` filter)

Conventions of the embedding:
  - Python strings are modelled as `List Char` inside the scanner; character
    class predicates (`isalpha`, `isdigit`, `isalnum`, `upper`) are modelled
    with Lean's ASCII character predicates.
  - Python `float` values are modelled as exact decimal rationals; every float
    the theorems rely on is exactly representable.
  - The index-based scanner/parser loops are modelled by structural
    consumption of the remaining input, with the same line/column bookkeeping;
    the main loops carry a fuel argument large enough for the whole input, and
    exhausted fuel is a distinguished error value shown unreachable where a
    theorem needs it.
  - Python exceptions are modelled with `Except`; an out-of-range list index
    (Python `IndexError`) and `.lower()` on a non-string (`AttributeError`)
    are distinguished error values of the parser model.
-/

namespace Franz

/-- Python runtime values as they occur as token payloads and AST fields:
`None`, `str`, `int`, `float` (exact decimal rationals, see module comment)
and `bool` (for the interpreter's constants). -/
inductive PyVal where
  | none
  | str (s : String)
  | int (n : Int)
  | float (q : ℚ)
  | bool (b : Bool)
deriving DecidableEq, Repr

/-- From src/lexer.py `TT`: all token types of FranzCode. -/
inductive TT where
  | NUMBER | STRING | IDENTIFIER
  | PLUS | MINUS | STAR | SLASH | PERCENT | POWER
  | EQ | NEQ | GT | LT | GTE | LTE
  | LPAREN | RPAREN
  | SAY | YELL | WHISPER | CONFUSE | REPEAT | TIMES
  | SET | TO | ADD | SUB | MUL | DIV | BY
  | IF | THEN | ELSE | ENDIF | AND | OR | NOT
  | LOOP | ENDLOOP | BREAKOUT
  | WAIT | SECONDS | DUMP | STOP
  | RICKROLL | MYSTERY | OOPS | FLIP | DICE | YEET | BRUH | POGGERS
  | NEWLINE | EOF
deriving DecidableEq, Repr

/-- From src/lexer.py: `TT.name` of each token type (used in error messages). -/
def ttName : TT → String
  | .NUMBER => "NUMBER" | .STRING => "STRING" | .IDENTIFIER => "IDENTIFIER"
  | .PLUS => "PLUS" | .MINUS => "MINUS" | .STAR => "STAR" | .SLASH => "SLASH"
  | .PERCENT => "PERCENT" | .POWER => "POWER"
  | .EQ => "EQ" | .NEQ => "NEQ" | .GT => "GT" | .LT => "LT" | .GTE => "GTE" | .LTE => "LTE"
  | .LPAREN => "LPAREN" | .RPAREN => "RPAREN"
  | .SAY => "SAY" | .YELL => "YELL" | .WHISPER => "WHISPER" | .CONFUSE => "CONFUSE"
  | .REPEAT => "REPEAT" | .TIMES => "TIMES"
  | .SET => "SET" | .TO => "TO" | .ADD => "ADD" | .SUB => "SUB" | .MUL => "MUL"
  | .DIV => "DIV" | .BY => "BY"
  | .IF => "IF" | .THEN => "THEN" | .ELSE => "ELSE" | .ENDIF => "ENDIF"
  | .AND => "AND" | .OR => "OR" | .NOT => "NOT"
  | .LOOP => "LOOP" | .ENDLOOP => "ENDLOOP" | .BREAKOUT => "BREAKOUT"
  | .WAIT => "WAIT" | .SECONDS => "SECONDS" | .DUMP => "DUMP" | .STOP => "STOP"
  | .RICKROLL => "RICKROLL" | .MYSTERY => "MYSTERY" | .OOPS => "OOPS" | .FLIP => "FLIP"
  | .DICE => "DICE" | .YEET => "YEET" | .BRUH => "BRUH" | .POGGERS => "POGGERS"
  | .NEWLINE => "NEWLINE" | .EOF => "EOF"

/-- From src/lexer.py `KEYWORDS`: the map of uppercase keyword strings to
token types, in source order (the dict is modelled as an association list;
all keys are distinct, so lookup agrees with `dict.get`). -/
def KEYWORDS : List (String × TT) :=
  [("SAY", .SAY), ("YELL", .YELL), ("WHISPER", .WHISPER), ("CONFUSE", .CONFUSE),
   ("REPEAT", .REPEAT), ("TIMES", .TIMES),
   ("SET", .SET), ("TO", .TO), ("ADD", .ADD), ("SUB", .SUB), ("MUL", .MUL),
   ("DIV", .DIV), ("BY", .BY),
   ("IF", .IF), ("THEN", .THEN), ("ELSE", .ELSE), ("ENDIF", .ENDIF),
   ("AND", .AND), ("OR", .OR), ("NOT", .NOT),
   ("LOOP", .LOOP), ("ENDLOOP", .ENDLOOP), ("BREAKOUT", .BREAKOUT),
   ("WAIT", .WAIT), ("SECONDS", .SECONDS), ("DUMP", .DUMP), ("STOP", .STOP),
   ("RICKROLL", .RICKROLL), ("MYSTERY", .MYSTERY), ("OOPS", .OOPS), ("FLIP", .FLIP),
   ("DICE", .DICE), ("YEET", .YEET), ("BRUH", .BRUH), ("POGGERS", .POGGERS)]

/-- From src/lexer.py `Token`: a token with its type, payload value and
1-based line/column position recorded at emission time. -/
structure Token where
  type : TT
  value : PyVal
  line : Nat
  col : Nat
deriving DecidableEq, Repr

/-- The single-quote character (code 39), written via its code so that string
rendering helpers stay readable. -/
def squote : Char := Char.ofNat 39

/-- Python `str.upper()`, modelled characterwise over the string's
characters (ASCII, as in the keyword table's domain). -/
def pyUpper (s : String) : String := String.mk (s.data.map Char.toUpper)

/-- Python `str.lower()`, modelled characterwise. -/
def pyLowerStr (s : String) : String := String.mk (s.data.map Char.toLower)

/-- From src/lexer.py `LexError`: the lexer's exception.  In the source it is
raised with a formatted message only; each constructor here records exactly
the data that the corresponding raise site interpolates into its message
(note that only the unexpected-character site includes a column). -/
inductive LexError where
  | unexpectedChar (line col : Nat) (ch : Char)
  | untermStringNewline (line : Nat) (quote : Char)
  | untermStringEof (line : Nat)
  | malformedNumber (line : Nat)
  | outOfFuel
deriving DecidableEq, Repr

/-- The exact message text each raise site of src/lexer.py produces. -/
def LexError.message : LexError → String
  | .unexpectedChar line col ch =>
      "[Line " ++ toString line ++ ", Col " ++ toString col ++
      "] Unexpected character: " ++ String.singleton squote ++
      String.singleton ch ++ String.singleton squote
  | .untermStringNewline line quote =>
      "[Line " ++ toString line ++ "] Unterminated string — did you forget a closing " ++
      String.singleton quote ++ "?"
  | .untermStringEof line =>
      "[Line " ++ toString line ++ "] Unterminated string at end of file."
  | .malformedNumber line =>
      "[Line " ++ toString line ++ "] Malformed number — too many dots."
  | .outOfFuel => "unreachable: fuel exhausted"

/-- The column number a raised `LexError` carries, when its raise site
interpolates one into the message (only the unexpected-character site does). -/
def LexError.colCarried : LexError → Option Nat
  | .unexpectedChar _ col _ => Option.some col
  | _ => Option.none

/-- The line number a raised `LexError` carries (every raise site includes
the current line in its message, except the artificial fuel marker). -/
def LexError.lineCarried : LexError → Option Nat
  | .unexpectedChar line _ _ => Option.some line
  | .untermStringNewline line _ => Option.some line
  | .untermStringEof line => Option.some line
  | .malformedNumber line => Option.some line
  | .outOfFuel => Option.none

/-- From src/lexer.py `Lexer._skip_line_comment`: consume characters up to
(but not including) the next newline, advancing the column. -/
def skipLineComment : List Char → Nat → List Char × Nat
  | [], col => ([], col)
  | c :: rest, col =>
    if c == '\n' then (c :: rest, col)
    else skipLineComment rest (col + 1)

/-- From src/lexer.py `Lexer._read_string` (after the opening quote has been
consumed): scan up to the closing quote, erroring on a newline or end of
input; returns the string contents, the input remaining after the closing
quote, and the column after the closing quote (the line cannot change). -/
def readStringLoop (quote : Char) : List Char → Nat → Nat → List Char →
    Except LexError (String × List Char × Nat)
  | [], line, _, _ => .error (.untermStringEof line)
  | c :: rest, line, col, acc =>
    if c == quote then .ok (String.mk acc.reverse, rest, col + 1)
    else if c == '\n' then .error (.untermStringNewline line quote)
    else readStringLoop quote rest line (col + 1) (c :: acc)

/-- From src/lexer.py `Lexer._read_number`: consume digits and dots, erroring
at a second dot; returns the raw lexeme, the remaining input, the column
after the lexeme, and the number of dots seen. -/
def readNumberLoop : List Char → Nat → Nat → Nat → List Char →
    Except LexError (List Char × List Char × Nat × Nat)
  | [], _, col, dots, acc => .ok (acc.reverse, [], col, dots)
  | c :: rest, line, col, dots, acc =>
    if c.isDigit then readNumberLoop rest line (col + 1) dots (c :: acc)
    else if c == '.' then
      if dots ≥ 1 then .error (.malformedNumber line)
      else readNumberLoop rest line (col + 1) 1 (c :: acc)
    else .ok (acc.reverse, c :: rest, col, dots)

/-- The loop condition of src/lexer.py `Lexer._read_word`
(`isalnum() or ch == "_"`). -/
def wordChar (c : Char) : Bool := c.isAlphanum || c == '_'

/-- The loop condition of src/lexer.py `Lexer._read_number`
(`isdigit() or ch == "."`). -/
def numChar (c : Char) : Bool := c.isDigit || c == '.'

/-- From src/lexer.py `Lexer._read_word`: consume alphanumerics and
underscores; returns the word characters, the remaining input and the column
after the word. -/
def readWordLoop : List Char → Nat → List Char →
    List Char × List Char × Nat
  | [], col, acc => (acc.reverse, [], col)
  | c :: rest, col, acc =>
    if wordChar c then readWordLoop rest (col + 1) (c :: acc)
    else (acc.reverse, c :: rest, col)

/-- Python `int(raw)` on a digit string. -/
def pyInt (raw : List Char) : Int :=
  Int.ofNat (raw.foldl (fun acc c => acc * 10 + (c.toNat - 48)) 0)

/-- Python `float(raw)` on a digit string containing at most one dot,
read as an exact decimal rational. -/
def pyFloat (raw : List Char) : ℚ :=
  let intPart := raw.takeWhile (fun c => c != '.')
  let fracPart := (raw.dropWhile (fun c => c != '.')).drop 1
  (pyInt intPart : ℚ) + (pyInt fracPart : ℚ) / (10 : ℚ) ^ fracPart.length

/-- One iteration of the scanning loop in src/lexer.py `Lexer.tokenize`:
classify the current character in source order and emit at most one token.
Returns the optional token, the remaining input and the updated line/column. -/
def lexStep : List Char → Nat → Nat → Except LexError (Option Token × List Char × Nat × Nat)
  | [], line, col => .ok (Option.none, [], line, col)
  | c :: rest, line, col =>
    if c == ' ' || c == '\t' || c == '\r' then
      .ok (Option.none, rest, line, col + 1)
    else if c == '\n' then
      .ok (Option.some ⟨.NEWLINE, .none, line, col⟩, rest, line + 1, 1)
    else if c == '/' && rest.head? == Option.some '/' then
      let r := skipLineComment (c :: rest) col
      .ok (Option.none, r.1, line, r.2)
    else if c == '#' then
      let r := skipLineComment (c :: rest) col
      .ok (Option.none, r.1, line, r.2)
    else if c == '"' || c == squote then
      match readStringLoop c rest line (col + 1) [] with
      | .error e => .error e
      | .ok (s, rest', col') =>
        .ok (Option.some ⟨.STRING, .str s, line, col'⟩, rest', line, col')
    else if c.isDigit || (c == '.' && (rest.head?.map Char.isDigit).getD false) then
      match readNumberLoop (c :: rest) line col 0 [] with
      | .error e => .error e
      | .ok (raw, rest', col', dots) =>
        .ok (Option.some ⟨.NUMBER,
              if dots > 0 then .float (pyFloat raw) else .int (pyInt raw),
              line, col'⟩, rest', line, col')
    else if c.isAlpha || c == '_' then
      let r := readWordLoop (c :: rest) col []
      let word := String.mk r.1
      match List.lookup (pyUpper word) KEYWORDS with
      | Option.some tt =>
        .ok (Option.some ⟨tt, .str (pyUpper word), line, r.2.2⟩, r.2.1, line, r.2.2)
      | Option.none =>
        .ok (Option.some ⟨.IDENTIFIER, .str word, line, r.2.2⟩, r.2.1, line, r.2.2)
    else if c == '*' && rest.head? == Option.some '*' then
      .ok (Option.some ⟨.POWER, .str ("**"), line, col + 2⟩, rest.tail, line, col + 2)
    else if c == '=' && rest.head? == Option.some '=' then
      .ok (Option.some ⟨.EQ, .str ("=="), line, col + 2⟩, rest.tail, line, col + 2)
    else if c == '!' && rest.head? == Option.some '=' then
      .ok (Option.some ⟨.NEQ, .str ("!="), line, col + 2⟩, rest.tail, line, col + 2)
    else if c == '>' && rest.head? == Option.some '=' then
      .ok (Option.some ⟨.GTE, .str (">="), line, col + 2⟩, rest.tail, line, col + 2)
    else if c == '<' && rest.head? == Option.some '=' then
      .ok (Option.some ⟨.LTE, .str ("<="), line, col + 2⟩, rest.tail, line, col + 2)
    else if c == '+' then
      .ok (Option.some ⟨.PLUS, .str ("+"), line, col + 1⟩, rest, line, col + 1)
    else if c == '-' then
      .ok (Option.some ⟨.MINUS, .str ("-"), line, col + 1⟩, rest, line, col + 1)
    else if c == '*' then
      .ok (Option.some ⟨.STAR, .str ("*"), line, col + 1⟩, rest, line, col + 1)
    else if c == '/' then
      .ok (Option.some ⟨.SLASH, .str ("/"), line, col + 1⟩, rest, line, col + 1)
    else if c == '%' then
      .ok (Option.some ⟨.PERCENT, .str ("%"), line, col + 1⟩, rest, line, col + 1)
    else if c == '>' then
      .ok (Option.some ⟨.GT, .str (">"), line, col + 1⟩, rest, line, col + 1)
    else if c == '<' then
      .ok (Option.some ⟨.LT, .str ("<"), line, col + 1⟩, rest, line, col + 1)
    else if c == '(' then
      .ok (Option.some ⟨.LPAREN, .str ("("), line, col + 1⟩, rest, line, col + 1)
    else if c == ')' then
      .ok (Option.some ⟨.RPAREN, .str (")"), line, col + 1⟩, rest, line, col + 1)
    else
      .error (.unexpectedChar line col c)

/-- The main loop of src/lexer.py `Lexer.tokenize`: run `lexStep` until the
input is exhausted, then append the `EOF` end-marker token at the final
position.  The fuel argument bounds the number of iterations; every step
consumes at least one character, so `length + 1` fuel never runs out. -/
def lexLoop : Nat → List Char → Nat → Nat → Except LexError (List Token)
  | 0, _, _, _ => .error .outOfFuel
  | _ + 1, [], line, col => .ok [⟨.EOF, .none, line, col⟩]
  | fuel + 1, c :: rest, line, col =>
    match lexStep (c :: rest) line col with
    | .error e => .error e
    | .ok (emitted, rest', line', col') =>
      match lexLoop fuel rest' line' col' with
      | .error e => .error e
      | .ok ts => .ok (emitted.toList ++ ts)

/-- From src/lexer.py `Lexer.tokenize`: scan a source string from line 1,
column 1 into a token list terminated by `EOF`. -/
def tokenize (src : String) : Except LexError (List Token) :=
  lexLoop (src.data.length + 1) src.data 1 1

/-- From src/ast_nodes.py: the AST node dataclasses.  Dynamically typed
dataclass fields that receive token payloads hold `PyVal`; the two operator
fields the parser fills with string literals of its own (`UnaryOpNode.op`)
or with `.lower()` of a token payload (`LogicNode.op`) hold `String`. -/
inductive Node where
  | numberNode (value : PyVal) (line : Nat)
  | stringNode (value : PyVal) (line : Nat)
  | identNode (name : PyVal) (line : Nat)
  | binOpNode (left : Node) (op : PyVal) (right : Node) (line : Nat)
  | unaryOpNode (op : String) (operand : Node) (line : Nat)
  | compareNode (left : Node) (op : PyVal) (right : Node) (line : Nat)
  | logicNode (left : Node) (op : String) (right : Node) (line : Nat)
  | programNode (body : List Node) (line : Nat)
  | sayNode (expr : Node) (line : Nat)
  | yellNode (expr : Node) (line : Nat)
  | whisperNode (expr : Node) (line : Nat)
  | confuseNode (expr : Node) (line : Nat)
  | repeatNode (expr : Node) (count : Node) (line : Nat)
  | yeetNode (expr : Node) (line : Nat)
  | setNode (name : PyVal) (value : Node) (line : Nat)
  | modifyNode (op : PyVal) (name : PyVal) (amount : Node) (line : Nat)
  | ifNode (condition : Node) (thenBody : List Node) (elseBody : List Node) (line : Nat)
  | loopNode (count : Node) (body : List Node) (line : Nat)
  | breakoutNode (line : Nat)
  | waitNode (seconds : Node) (line : Nat)
  | dumpNode (line : Nat)
  | stopNode (line : Nat)
  | rickrollNode (line : Nat)
  | mysteryNode (line : Nat)
  | oopsNode (line : Nat)
  | flipNode (line : Nat)
  | diceNode (line : Nat)
  | bruhNode (line : Nat)
  | poggersNode (line : Nat)

/-- The `line` attribute common to every AST node (`Node.line` in
src/ast_nodes.py). -/
def Node.lineOf : Node → Nat
  | .numberNode _ l => l | .stringNode _ l => l | .identNode _ l => l
  | .binOpNode _ _ _ l => l | .unaryOpNode _ _ l => l
  | .compareNode _ _ _ l => l | .logicNode _ _ _ l => l
  | .programNode _ l => l
  | .sayNode _ l => l | .yellNode _ l => l | .whisperNode _ l => l
  | .confuseNode _ l => l | .repeatNode _ _ l => l | .yeetNode _ l => l
  | .setNode _ _ l => l | .modifyNode _ _ _ l => l
  | .ifNode _ _ _ l => l | .loopNode _ _ l => l
  | .breakoutNode l => l | .waitNode _ l => l | .dumpNode l => l | .stopNode l => l
  | .rickrollNode l => l | .mysteryNode l => l | .oopsNode l => l | .flipNode l => l
  | .diceNode l => l | .bruhNode l => l | .poggersNode l => l

/-- From src/parser.py `ParseError`, together with the two Python runtime
exceptions the parser can hit on malformed token lists: an out-of-range
`tokens[pos]` (`IndexError`) and `.lower()` on a non-string payload
(`AttributeError`).  `outOfFuel` is the artificial marker for exhausted
recursion fuel. -/
inductive ParseErr where
  | parseError (line : Nat) (msg : String)
  | indexError
  | attributeError
  | outOfFuel
deriving DecidableEq, Repr

/-- Wrap a string in single quotes, as the f-string interpolations
`'{...}'` of the source's error messages do. -/
def sq (s : String) : String :=
  String.singleton squote ++ s ++ String.singleton squote

/-- Python `str()` of a token payload, as interpolated into error
messages.  Floats render via their exact decimal expansion. -/
def pyFloatRepr (q : ℚ) : String :=
  let sign := if q < 0 then "-" else ""
  let a := |q|
  if a.den == 1 then sign ++ toString a.num ++ ".0"
  else
    match (List.range 40).find? (fun e => decide (a.den ∣ 10 ^ e)) with
    | Option.some e =>
      let digits := toString (a.num * (10 : Int) ^ e / (a.den : Int))
      let digits :=
        if digits.length ≤ e then
          String.mk (List.replicate (e + 1 - digits.length) '0') ++ digits
        else digits
      sign ++ digits.take (digits.length - e) ++ "." ++ digits.drop (digits.length - e)
    | Option.none => sign ++ toString a.num ++ "/" ++ toString a.den

/-- Python `str()` of a `PyVal`. -/
def pyStr : PyVal → String
  | .none => "None"
  | .str s => s
  | .int n => toString n
  | .float q => pyFloatRepr q
  | .bool b => if b then "True" else "False"

/-- Python `repr()` of a string: quoted, preferring single quotes, with the
common escapes (exotic non-printables are not modelled; no theorem relies on
them). -/
def pyStrRepr (s : String) : String :=
  let qc := if s.data.contains squote && !(s.data.contains '"') then '"' else squote
  let esc := fun (c : Char) =>
    if c == '\\' then "\\\\"
    else if c == qc then String.singleton '\\' ++ String.singleton qc
    else if c == '\n' then "\\n"
    else if c == '\r' then "\\r"
    else if c == '\t' then "\\t"
    else String.singleton c
  String.singleton qc ++ String.join (s.data.map esc) ++ String.singleton qc

/-- Python `repr()` of a `PyVal`, as used by the AST pretty-printer. -/
def pyRepr : PyVal → String
  | .none => "None"
  | .str s => pyStrRepr s
  | .int n => toString n
  | .float q => pyFloatRepr q
  | .bool b => if b then "True" else "False"

/-- From src/parser.py `Parser.__init__`: newline tokens are stripped before
parsing begins. -/
def stripNewlines (tokens : List Token) : List Token :=
  tokens.filter (fun t => t.type != TT.NEWLINE)

/-- From src/parser.py `Parser._current` (`self.tokens[self.pos]`): the token
at the cursor, or Python's `IndexError` past the end. -/
def currentTok (tokens : List Token) (pos : Nat) : Except ParseErr Token :=
  match tokens.get? pos with
  | Option.some t => .ok t
  | Option.none => .error .indexError

/-- From src/parser.py `Parser._at_end`. -/
def atEnd (tokens : List Token) (pos : Nat) : Except ParseErr Bool := do
  let t ← currentTok tokens pos
  pure (t.type == TT.EOF)

/-- From src/parser.py `Parser._check`. -/
def checkTok (tokens : List Token) (pos : Nat) (types : List TT) :
    Except ParseErr Bool := do
  let t ← currentTok tokens pos
  pure (types.contains t.type)

/-- From src/parser.py `Parser._match` on a single type: the new cursor when
the current token matches. -/
def matchTok (tokens : List Token) (pos : Nat) (tt : TT) :
    Except ParseErr (Option Nat) := do
  let t ← currentTok tokens pos
  pure (if t.type == tt then Option.some (pos + 1) else Option.none)

/-- From src/parser.py `Parser._expect`: consume a token of the given type or
raise a `ParseError` with the source's message format. -/
def expectTok (tokens : List Token) (pos : Nat) (tt : TT) (msg : String) :
    Except ParseErr (Token × Nat) := do
  let t ← currentTok tokens pos
  if t.type == tt then pure (t, pos + 1)
  else
    .error (.parseError t.line
      ((if msg == "" then "expected " ++ ttName tt else msg) ++
       " — got " ++ sq (pyStr t.value) ++ " (" ++ ttName t.type ++ ") instead."))

/-- Python `value.lower()` on a token payload (raises `AttributeError` on a
non-string payload). -/
def pyLower : PyVal → Except ParseErr String
  | .str s => .ok (pyLowerStr s)
  | _ => .error .attributeError

mutual

/-- The statement loop of src/parser.py `Parser.parse`: collect statements
until the end marker.  (`_statement` never returns `None`; the
`if stmt is not None` guard in the source is vacuous.) -/
def parseProgramLoop : Nat → List Token → Nat → Except ParseErr (List Node × Nat)
  | 0, _, _ => .error .outOfFuel
  | fuel + 1, tokens, pos => do
    let e ← atEnd tokens pos
    if e then pure ([], pos)
    else
      let (stmt, pos') ← parseStatement fuel tokens pos
      let (rest, pos'') ← parseProgramLoop fuel tokens pos'
      pure (stmt :: rest, pos'')
termination_by structural fuel _tokens _pos => fuel

/-- From src/parser.py `Parser._statement` together with the per-statement
parse routines it dispatches to, in source order. -/
def parseStatement : Nat → List Token → Nat → Except ParseErr (Node × Nat)
  | 0, _, _ => .error .outOfFuel
  | fuel + 1, tokens, pos => do
    let t ← currentTok tokens pos
    let line := t.line
    match t.type with
    | .SAY => do
      let (e, p) ← parseExpr fuel tokens (pos + 1)
      pure (.sayNode e line, p)
    | .YELL => do
      let (e, p) ← parseExpr fuel tokens (pos + 1)
      pure (.yellNode e line, p)
    | .WHISPER => do
      let (e, p) ← parseExpr fuel tokens (pos + 1)
      pure (.whisperNode e line, p)
    | .CONFUSE => do
      let (e, p) ← parseExpr fuel tokens (pos + 1)
      pure (.confuseNode e line, p)
    | .REPEAT => do
      let (e, p) ← parseExpr fuel tokens (pos + 1)
      let (cnt, p2) ← parseExpr fuel tokens p
      let (_, p3) ← expectTok tokens p2 .TIMES ("expected TIMES after count in REPEAT")
      pure (.repeatNode e cnt line, p3)
    | .YEET => do
      let (e, p) ← parseExpr fuel tokens (pos + 1)
      pure (.yeetNode e line, p)
    | .SET => do
      let (nameTok, p) ← expectTok tokens (pos + 1) .IDENTIFIER
        ("expected variable name after SET")
      let (_, p2) ← expectTok tokens p .TO ("expected TO after variable name in SET")
      let (v, p3) ← parseExpr fuel tokens p2
      pure (.setNode nameTok.value v line, p3)
    | .ADD => parseModify fuel tokens pos
    | .SUB => parseModify fuel tokens pos
    | .MUL => parseModify fuel tokens pos
    | .DIV => parseModify fuel tokens pos
    | .IF => do
      let (cond, p) ← parseExpr fuel tokens (pos + 1)
      let (_, p2) ← expectTok tokens p .THEN ("expected THEN after condition in IF")
      let (thenB, p3) ← parseBodyUntil fuel tokens p2 [.ELSE, .ENDIF]
      let melse ← matchTok tokens p3 .ELSE
      match melse with
      | Option.some p4 => do
        let (elseB, p5) ← parseBodyUntil fuel tokens p4 [.ENDIF]
        let (_, p6) ← expectTok tokens p5 .ENDIF ("expected ENDIF to close IF block")
        pure (.ifNode cond thenB elseB line, p6)
      | Option.none => do
        let (_, p4) ← expectTok tokens p3 .ENDIF ("expected ENDIF to close IF block")
        pure (.ifNode cond thenB [] line, p4)
    | .LOOP => do
      let (cnt, p) ← parseExpr fuel tokens (pos + 1)
      let (_, p2) ← expectTok tokens p .TIMES ("expected TIMES after count in LOOP")
      let (body, p3) ← parseBodyUntil fuel tokens p2 [.ENDLOOP]
      let (_, p4) ← expectTok tokens p3 .ENDLOOP ("expected ENDLOOP to close LOOP block")
      pure (.loopNode cnt body line, p4)
    | .BREAKOUT => pure (.breakoutNode line, pos + 1)
    | .WAIT => do
      let (secs, p) ← parseExpr fuel tokens (pos + 1)
      let (_, p2) ← expectTok tokens p .SECONDS ("expected SECONDS after duration in WAIT")
      pure (.waitNode secs line, p2)
    | .DUMP => pure (.dumpNode line, pos + 1)
    | .STOP => pure (.stopNode line, pos + 1)
    | .RICKROLL => pure (.rickrollNode line, pos + 1)
    | .MYSTERY => pure (.mysteryNode line, pos + 1)
    | .OOPS => pure (.oopsNode line, pos + 1)
    | .FLIP => pure (.flipNode line, pos + 1)
    | .DICE => pure (.diceNode line, pos + 1)
    | .BRUH => pure (.bruhNode line, pos + 1)
    | .POGGERS => pure (.poggersNode line, pos + 1)
    | _ =>
      .error (.parseError line
        ("Unexpected token " ++ sq (pyStr t.value) ++ " (" ++ ttName t.type ++
         "). Franz doesn't know what to do with that."))
termination_by structural fuel _tokens _pos => fuel

/-- From src/parser.py `Parser._modify` (ADD/SUB/MUL/DIV name BY expr). -/
def parseModify : Nat → List Token → Nat → Except ParseErr (Node × Nat)
  | 0, _, _ => .error .outOfFuel
  | fuel + 1, tokens, pos => do
    let opTok ← currentTok tokens pos
    let (nameTok, p) ← expectTok tokens (pos + 1) .IDENTIFIER
      ("expected variable name after " ++ pyStr opTok.value)
    let (_, p2) ← expectTok tokens p .BY
      ("expected BY after variable name in " ++ pyStr opTok.value)
    let (amount, p3) ← parseExpr fuel tokens p2
    pure (.modifyNode opTok.value nameTok.value amount opTok.line, p3)

/-- The body-collecting `while` loops of src/parser.py `Parser._if` and
`Parser._loop`: statements until end of input or one of the closing types. -/
def parseBodyUntil : Nat → List Token → Nat → List TT → Except ParseErr (List Node × Nat)
  | 0, _, _, _ => .error .outOfFuel
  | fuel + 1, tokens, pos, closers => do
    let e ← atEnd tokens pos
    if e then pure ([], pos)
    else
      let c ← checkTok tokens pos closers
      if c then pure ([], pos)
      else
        let (s, p) ← parseStatement fuel tokens pos
        let (r, p2) ← parseBodyUntil fuel tokens p closers
        pure (s :: r, p2)
termination_by structural fuel _tokens _pos _x => fuel

/-- From src/parser.py `Parser._expr`. -/
def parseExpr : Nat → List Token → Nat → Except ParseErr (Node × Nat)
  | 0, _, _ => .error .outOfFuel
  | fuel + 1, tokens, pos => parseLogic fuel tokens pos
termination_by structural fuel _tokens _pos => fuel

/-- From src/parser.py `Parser._logic` (AND / OR). -/
def parseLogic : Nat → List Token → Nat → Except ParseErr (Node × Nat)
  | 0, _, _ => .error .outOfFuel
  | fuel + 1, tokens, pos => do
    let (left, p) ← parseCompare fuel tokens pos
    parseLogicRest fuel tokens p left
termination_by structural fuel _tokens _pos => fuel

/-- The `while` loop of `Parser._logic`. -/
def parseLogicRest : Nat → List Token → Nat → Node → Except ParseErr (Node × Nat)
  | 0, _, _, _ => .error .outOfFuel
  | fuel + 1, tokens, pos, left => do
    let c ← checkTok tokens pos [.AND, .OR]
    if c then do
      let t ← currentTok tokens pos
      let op ← pyLower t.value
      let (right, p) ← parseCompare fuel tokens (pos + 1)
      parseLogicRest fuel tokens p (.logicNode left op right left.lineOf)
    else pure (left, pos)
termination_by structural fuel _tokens _pos _x => fuel

/-- From src/parser.py `Parser._compare` (== != > < >= <=). -/
def parseCompare : Nat → List Token → Nat → Except ParseErr (Node × Nat)
  | 0, _, _ => .error .outOfFuel
  | fuel + 1, tokens, pos => do
    let (left, p) ← parseAddition fuel tokens pos
    parseCompareRest fuel tokens p left
termination_by structural fuel _tokens _pos => fuel

/-- The `while` loop of `Parser._compare`. -/
def parseCompareRest : Nat → List Token → Nat → Node → Except ParseErr (Node × Nat)
  | 0, _, _, _ => .error .outOfFuel
  | fuel + 1, tokens, pos, left => do
    let c ← checkTok tokens pos [.EQ, .NEQ, .GT, .LT, .GTE, .LTE]
    if c then do
      let t ← currentTok tokens pos
      let (right, p) ← parseAddition fuel tokens (pos + 1)
      parseCompareRest fuel tokens p (.compareNode left t.value right left.lineOf)
    else pure (left, pos)
termination_by structural fuel _tokens _pos _x => fuel

/-- From src/parser.py `Parser._addition` (+ -). -/
def parseAddition : Nat → List Token → Nat → Except ParseErr (Node × Nat)
  | 0, _, _ => .error .outOfFuel
  | fuel + 1, tokens, pos => do
    let (left, p) ← parseMultiply fuel tokens pos
    parseAdditionRest fuel tokens p left
termination_by structural fuel _tokens _pos => fuel

/-- The `while` loop of `Parser._addition`. -/
def parseAdditionRest : Nat → List Token → Nat → Node → Except ParseErr (Node × Nat)
  | 0, _, _, _ => .error .outOfFuel
  | fuel + 1, tokens, pos, left => do
    let c ← checkTok tokens pos [.PLUS, .MINUS]
    if c then do
      let t ← currentTok tokens pos
      let (right, p) ← parseMultiply fuel tokens (pos + 1)
      parseAdditionRest fuel tokens p (.binOpNode left t.value right left.lineOf)
    else pure (left, pos)
termination_by structural fuel _tokens _pos _x => fuel

/-- From src/parser.py `Parser._multiply` (* / % **). -/
def parseMultiply : Nat → List Token → Nat → Except ParseErr (Node × Nat)
  | 0, _, _ => .error .outOfFuel
  | fuel + 1, tokens, pos => do
    let (left, p) ← parseUnary fuel tokens pos
    parseMultiplyRest fuel tokens p left
termination_by structural fuel _tokens _pos => fuel

/-- The `while` loop of `Parser._multiply`. -/
def parseMultiplyRest : Nat → List Token → Nat → Node → Except ParseErr (Node × Nat)
  | 0, _, _, _ => .error .outOfFuel
  | fuel + 1, tokens, pos, left => do
    let c ← checkTok tokens pos [.STAR, .SLASH, .PERCENT, .POWER]
    if c then do
      let t ← currentTok tokens pos
      let (right, p) ← parseUnary fuel tokens (pos + 1)
      parseMultiplyRest fuel tokens p (.binOpNode left t.value right left.lineOf)
    else pure (left, pos)
termination_by structural fuel _tokens _pos _x => fuel

/-- From src/parser.py `Parser._unary` (-x or NOT x). -/
def parseUnary : Nat → List Token → Nat → Except ParseErr (Node × Nat)
  | 0, _, _ => .error .outOfFuel
  | fuel + 1, tokens, pos => do
    let cMinus ← checkTok tokens pos [.MINUS]
    if cMinus then do
      let t ← currentTok tokens pos
      let (operand, p) ← parseUnary fuel tokens (pos + 1)
      pure (.unaryOpNode ("-") operand t.line, p)
    else
      let cNot ← checkTok tokens pos [.NOT]
      if cNot then do
        let t ← currentTok tokens pos
        let (operand, p) ← parseUnary fuel tokens (pos + 1)
        pure (.unaryOpNode ("not") operand t.line, p)
      else parsePrimary fuel tokens pos
termination_by structural fuel _tokens _pos => fuel

/-- From src/parser.py `Parser._primary` (literals, identifiers, grouping). -/
def parsePrimary : Nat → List Token → Nat → Except ParseErr (Node × Nat)
  | 0, _, _ => .error .outOfFuel
  | fuel + 1, tokens, pos => do
    let t ← currentTok tokens pos
    match t.type with
    | .NUMBER => pure (.numberNode t.value t.line, pos + 1)
    | .STRING => pure (.stringNode t.value t.line, pos + 1)
    | .IDENTIFIER => pure (.identNode t.value t.line, pos + 1)
    | .LPAREN => do
      let (inner, p) ← parseExpr fuel tokens (pos + 1)
      let (_, p2) ← expectTok tokens p .RPAREN
        ("expected " ++ sq (")") ++ " to close grouped expression")
      pure (inner, p2)
    | _ =>
      .error (.parseError t.line
        ("Unexpected token " ++ sq (pyStr t.value) ++ " (" ++ ttName t.type ++
         ") in expression — expected a number, string, or variable name."))
termination_by structural fuel _tokens _pos => fuel

end

/-- Recursion fuel for a token list: the parser's recursion depth is bounded
by a small multiple of the token count (every eight nested calls consume at
least one token), so this bound never runs out on the concrete inputs the
theorems evaluate. -/
def parseFuel (tokens : List Token) : Nat := 8 * tokens.length + 32

/-- From src/parser.py `Parser.parse` (with `Parser.__init__`): strip newline
tokens, parse statements to the end marker, wrap in a `ProgramNode` at
line 0. -/
def parseTokens (tokens : List Token) : Except ParseErr Node :=
  let ts := stripNewlines tokens
  match parseProgramLoop (parseFuel ts) ts 0 with
  | .error e => .error e
  | .ok (body, _) => .ok (.programNode body 0)

/-- Either pipeline error, as handled separately by src/main.py. -/
inductive CompileErr where
  | lex (e : LexError)
  | parse (e : ParseErr)
deriving DecidableEq, Repr

/-- From src/main.py `compile_source`: run lexer and parser on a source
string. -/
def compileSource (src : String) : Except CompileErr Node :=
  match tokenize src with
  | .error e => .error (.lex e)
  | .ok ts =>
    match parseTokens ts with
    | .error e => .error (.parse e)
    | .ok ast => .ok ast

/-- Python `"  " * indent`. -/
def pad (indent : Nat) : String := String.mk (List.replicate (2 * indent) ' ')

mutual

/-- From src/main.py `_print_ast`: the recursive AST pretty-printer.  The
reflective dataclass walk of the source is unrolled per node kind: a node
whose single non-`line` field is neither a list nor a node prints as
`Name(repr)`; otherwise the name is printed and each field follows as a
`[name]` list, a `name:` child node, or a `name = repr` value, in dataclass
field order.  Each printed line ends in a newline. -/
def printNode : Node → Nat → String
  | .numberNode v _, ind => pad ind ++ "NumberNode(" ++ pyRepr v ++ ")\n"
  | .stringNode v _, ind => pad ind ++ "StringNode(" ++ pyRepr v ++ ")\n"
  | .identNode v _, ind => pad ind ++ "IdentNode(" ++ pyRepr v ++ ")\n"
  | .binOpNode l op r _, ind =>
    pad ind ++ "BinOpNode\n" ++
    pad ind ++ "  left:\n" ++ printNode l (ind + 2) ++
    pad ind ++ "  op = " ++ pyRepr op ++ "\n" ++
    pad ind ++ "  right:\n" ++ printNode r (ind + 2)
  | .unaryOpNode op x _, ind =>
    pad ind ++ "UnaryOpNode\n" ++
    pad ind ++ "  op = " ++ pyRepr (.str op) ++ "\n" ++
    pad ind ++ "  operand:\n" ++ printNode x (ind + 2)
  | .compareNode l op r _, ind =>
    pad ind ++ "CompareNode\n" ++
    pad ind ++ "  left:\n" ++ printNode l (ind + 2) ++
    pad ind ++ "  op = " ++ pyRepr op ++ "\n" ++
    pad ind ++ "  right:\n" ++ printNode r (ind + 2)
  | .logicNode l op r _, ind =>
    pad ind ++ "LogicNode\n" ++
    pad ind ++ "  left:\n" ++ printNode l (ind + 2) ++
    pad ind ++ "  op = " ++ pyRepr (.str op) ++ "\n" ++
    pad ind ++ "  right:\n" ++ printNode r (ind + 2)
  | .programNode body _, ind =>
    pad ind ++ "ProgramNode\n" ++
    pad ind ++ "  [body]\n" ++ printNodes body (ind + 2)
  | .sayNode e _, ind =>
    pad ind ++ "SayNode\n" ++ pad ind ++ "  expr:\n" ++ printNode e (ind + 2)
  | .yellNode e _, ind =>
    pad ind ++ "YellNode\n" ++ pad ind ++ "  expr:\n" ++ printNode e (ind + 2)
  | .whisperNode e _, ind =>
    pad ind ++ "WhisperNode\n" ++ pad ind ++ "  expr:\n" ++ printNode e (ind + 2)
  | .confuseNode e _, ind =>
    pad ind ++ "ConfuseNode\n" ++ pad ind ++ "  expr:\n" ++ printNode e (ind + 2)
  | .repeatNode e c _, ind =>
    pad ind ++ "RepeatNode\n" ++
    pad ind ++ "  expr:\n" ++ printNode e (ind + 2) ++
    pad ind ++ "  count:\n" ++ printNode c (ind + 2)
  | .yeetNode e _, ind =>
    pad ind ++ "YeetNode\n" ++ pad ind ++ "  expr:\n" ++ printNode e (ind + 2)
  | .setNode n v _, ind =>
    pad ind ++ "SetNode\n" ++
    pad ind ++ "  name = " ++ pyRepr n ++ "\n" ++
    pad ind ++ "  value:\n" ++ printNode v (ind + 2)
  | .modifyNode op n a _, ind =>
    pad ind ++ "ModifyNode\n" ++
    pad ind ++ "  op = " ++ pyRepr op ++ "\n" ++
    pad ind ++ "  name = " ++ pyRepr n ++ "\n" ++
    pad ind ++ "  amount:\n" ++ printNode a (ind + 2)
  | .ifNode c tb eb _, ind =>
    pad ind ++ "IfNode\n" ++
    pad ind ++ "  condition:\n" ++ printNode c (ind + 2) ++
    pad ind ++ "  [then_body]\n" ++ printNodes tb (ind + 2) ++
    pad ind ++ "  [else_body]\n" ++ printNodes eb (ind + 2)
  | .loopNode c b _, ind =>
    pad ind ++ "LoopNode\n" ++
    pad ind ++ "  count:\n" ++ printNode c (ind + 2) ++
    pad ind ++ "  [body]\n" ++ printNodes b (ind + 2)
  | .breakoutNode _, ind => pad ind ++ "BreakoutNode\n"
  | .waitNode s _, ind =>
    pad ind ++ "WaitNode\n" ++ pad ind ++ "  seconds:\n" ++ printNode s (ind + 2)
  | .dumpNode _, ind => pad ind ++ "DumpNode\n"
  | .stopNode _, ind => pad ind ++ "StopNode\n"
  | .rickrollNode _, ind => pad ind ++ "RickrollNode\n"
  | .mysteryNode _, ind => pad ind ++ "MysteryNode\n"
  | .oopsNode _, ind => pad ind ++ "OopsNode\n"
  | .flipNode _, ind => pad ind ++ "FlipNode\n"
  | .diceNode _, ind => pad ind ++ "DiceNode\n"
  | .bruhNode _, ind => pad ind ++ "BruhNode\n"
  | .poggersNode _, ind => pad ind ++ "PoggersNode\n"

/-- The body-list walk of `_print_ast`. -/
def printNodes : List Node → Nat → String
  | [], _ => ""
  | n :: rest, ind => printNode n ind ++ printNodes rest ind

end

/-- From src/main.py `REPL._meta` (`.vars` branch): the user-facing variable
listing keeps every binding whose name is neither `TRUE` nor `FALSE`. -/
def replVarsFilter (vs : List (String × PyVal)) : List (String × PyVal) :=
  vs.filter (fun kv => kv.1 != "TRUE" && kv.1 != "FALSE")

/-- Modelled from the spec: the FranzCode `Interpreter.__init__` /
`Environment` pair is code of this repository that is not under `src/` —
`src/interpreter.py` holds the separate C-like toy language the spec rules
out of scope, and `src/main.py` only imports and calls the missing class.
Spec §4.4: the root scope is created once per interpreter instance and
pre-seeded with a loop-counter variable initialized to 0, two fixed boolean
constants and two fixed floating-point mathematical constants.  Binding
names and the π value follow the REPL `.clear` reseeding code in
src/main.py; the second mathematical constant is Euler's number. -/
def interpreterInitEnv : List (String × PyVal) :=
  [("LOOPCOUNT", .int 0),
   ("TRUE", .bool true),
   ("FALSE", .bool false),
   ("PI", .float (3141592653589793 / 10 ^ 15 : ℚ)),
   ("E", .float (2718281828459045 / 10 ^ 15 : ℚ))]

/-- Modelled from the spec: `Environment.all_vars` flattens the scope chain
with innermost bindings winning; on the root environment alone it is the
root's own mapping. -/
def allVarsRoot (root : List (String × PyVal)) : List (String × PyVal) := root

/-- Whether a `PyVal` is a Python bool. -/
def PyVal.isBool : PyVal → Bool
  | .bool _ => true
  | _ => false

/-- Whether a `PyVal` is a Python float. -/
def PyVal.isFloat : PyVal → Bool
  | .float _ => true
  | _ => false

/-! ### Character-class facts -/

theorem alpha_not_digit {c : Char} (h : c.isAlpha = true) : c.isDigit = false := by
  simp only [Char.isAlpha, Char.isUpper, Char.isLower, Char.isDigit,
    Bool.or_eq_true, Bool.and_eq_true, decide_eq_true_eq, UInt32.le_def,
    BitVec.le_def] at *
  have e48 : ((48 : UInt32)).toBitVec.toNat = 48 := rfl
  have e57 : ((57 : UInt32)).toBitVec.toNat = 57 := rfl
  have e65 : ((65 : UInt32)).toBitVec.toNat = 65 := rfl
  have e90 : ((90 : UInt32)).toBitVec.toNat = 90 := rfl
  have e97 : ((97 : UInt32)).toBitVec.toNat = 97 := rfl
  have e122 : ((122 : UInt32)).toBitVec.toNat = 122 := rfl
  rcases h with ⟨h1, h2⟩ | ⟨h1, h2⟩ <;>
    · rw [Bool.and_eq_false_iff]
      simp only [decide_eq_false_iff_not, not_le, UInt32.lt_def, BitVec.lt_def]
      omega

/-- A word-start character (letter or underscore) differs from any concrete
character that is neither. -/
theorem word_start_ne {c : Char} (d : Char) (h : (c.isAlpha || c == '_') = true)
    (hd : (d.isAlpha || d == '_') = false) : (c == d) = false := by
  cases hq : c == d with
  | false => rfl
  | true =>
    rw [beq_iff_eq] at hq
    subst hq
    rw [h] at hd
    exact absurd hd (by simp)

theorem word_start_not_digit {c : Char} (h : (c.isAlpha || c == '_') = true) :
    c.isDigit = false := by
  rcases Bool.or_eq_true_iff.mp h with ha | hu
  · exact alpha_not_digit ha
  · rw [beq_iff_eq] at hu
    subst hu
    decide

/-- A digit differs from any concrete non-digit character. -/
theorem digit_ne {c : Char} (d : Char) (h : c.isDigit = true)
    (hd : d.isDigit = false) : (c == d) = false := by
  cases hq : c == d with
  | false => rfl
  | true =>
    rw [beq_iff_eq] at hq
    subst hq
    rw [h] at hd
    exact absurd hd (by simp)

/-! ### Sub-reader lemmas -/

/-- `_read_word` consumes exactly the maximal run of word characters. -/
theorem readWordLoop_eq (cs : List Char) (col : Nat) (acc : List Char) :
    readWordLoop cs col acc =
      (acc.reverse ++ cs.takeWhile wordChar,
       cs.dropWhile wordChar,
       col + (cs.takeWhile wordChar).length) := by
  induction cs generalizing col acc with
  | nil => simp [readWordLoop]
  | cons c rest ih =>
    cases h : wordChar c with
    | false => simp [readWordLoop, h, List.takeWhile_cons, List.dropWhile_cons]
    | true =>
      rw [readWordLoop, if_pos h, ih]
      simp only [List.takeWhile_cons, List.dropWhile_cons, h, List.reverse_cons,
        List.append_assoc, List.singleton_append, List.length_cons, Prod.mk.injEq,
        if_true]
      refine ⟨trivial, trivial, by omega⟩

/-- `_skip_line_comment` never grows the input. -/
theorem skipLineComment_length (cs : List Char) (col : Nat) :
    (skipLineComment cs col).1.length ≤ cs.length := by
  induction cs generalizing col with
  | nil => simp [skipLineComment]
  | cons c rest ih =>
    rw [skipLineComment]
    split
    · simp
    · exact Nat.le_trans (ih (col + 1)) (Nat.le_succ _)

/-- A successful `_read_string` run returns the column just after the closing
quote and consumes one more character than it adds to the contents. -/
theorem readStringLoop_ok {quote : Char} {cs : List Char} {line col : Nat}
    {acc : List Char} {s : String} {rest : List Char} {col' : Nat}
    (h : readStringLoop quote cs line col acc = .ok (s, rest, col')) :
    acc.length ≤ s.length ∧
    col' = col + (s.length - acc.length) + 1 ∧
    cs.length = (s.length - acc.length) + 1 + rest.length := by
  induction cs generalizing col acc with
  | nil => exact absurd h (by simp [readStringLoop])
  | cons c tl ih =>
    rw [readStringLoop] at h
    split at h
    · simp only [Except.ok.injEq, Prod.mk.injEq] at h
      obtain ⟨rfl, rfl, rfl⟩ := h
      refine ⟨?_, ?_, ?_⟩
      · simp [String.length]
      · simp [String.length]
      · simp [String.length]
        omega
    · split at h
      · exact absurd h (by simp)
      · obtain ⟨h1, h2, h3⟩ := ih h
        simp only [List.length_cons] at h1 h2 h3 ⊢
        refine ⟨by omega, by omega, by omega⟩

/-- A failing `_read_string` run raises one of the two unterminated-string
errors, at the line the scan is on. -/
theorem readStringLoop_error {quote : Char} {cs : List Char} {line col : Nat}
    {acc : List Char} {e : LexError}
    (h : readStringLoop quote cs line col acc = .error e) :
    e = .untermStringEof line ∨ e = .untermStringNewline line quote := by
  induction cs generalizing col acc with
  | nil =>
    rw [readStringLoop] at h
    rw [Except.error.injEq] at h
    exact Or.inl h.symm
  | cons c tl ih =>
    rw [readStringLoop] at h
    split at h
    · exact absurd h (by simp)
    · split at h
      · rw [Except.error.injEq] at h
        exact Or.inr h.symm
      · exact ih h

/-- A successful `_read_number` run returns the column just after the lexeme
and consumes exactly the characters it adds to the lexeme. -/
theorem readNumberLoop_ok {cs : List Char} {line col dots : Nat}
    {acc : List Char} {raw rest : List Char} {col' dots' : Nat}
    (h : readNumberLoop cs line col dots acc = .ok (raw, rest, col', dots')) :
    acc.length ≤ raw.length ∧
    col' = col + (raw.length - acc.length) ∧
    cs.length = (raw.length - acc.length) + rest.length := by
  induction cs generalizing col dots acc with
  | nil =>
    rw [readNumberLoop] at h
    simp only [Except.ok.injEq, Prod.mk.injEq] at h
    obtain ⟨rfl, rfl, rfl, rfl⟩ := h
    simp
  | cons c tl ih =>
    rw [readNumberLoop] at h
    split at h
    · obtain ⟨h1, h2, h3⟩ := ih h
      simp only [List.length_cons] at h1 h2 h3 ⊢
      exact ⟨by omega, by omega, by omega⟩
    · split at h
      · split at h
        · exact absurd h (by simp)
        · obtain ⟨h1, h2, h3⟩ := ih h
          simp only [List.length_cons] at h1 h2 h3 ⊢
          exact ⟨by omega, by omega, by omega⟩
      · simp only [Except.ok.injEq, Prod.mk.injEq] at h
        obtain ⟨rfl, rfl, rfl, rfl⟩ := h
        simp

theorem wordChar_of_start {c : Char} (h : (c.isAlpha || c == '_') = true) :
    wordChar c = true := by
  rcases Bool.or_eq_true_iff.mp h with ha | hu
  · simp [wordChar, Char.isAlphanum, ha]
  · simp [wordChar, hu]

/-- Association-list lookup only returns stored values. -/
theorem lookup_mem_snd {α β : Type} [BEq α] {l : List (α × β)} {a : α} {b : β}
    (h : List.lookup a l = Option.some b) : b ∈ l.map Prod.snd := by
  induction l with
  | nil => simp [List.lookup] at h
  | cons p rest ih =>
    obtain ⟨k, v⟩ := p
    rw [List.lookup] at h
    split at h
    · simp only [Option.some.injEq] at h
      subst h
      simp
    · simp [ih h]

theorem keywords_ne_eof {tt : TT} (h : tt ∈ KEYWORDS.map Prod.snd) :
    tt ≠ TT.EOF := by
  fin_cases h <;> decide

/-- A failing `_read_number` run raises the malformed-number error at the
line the scan is on. -/
theorem readNumberLoop_error {cs : List Char} {line col dots : Nat}
    {acc : List Char} {e : LexError}
    (h : readNumberLoop cs line col dots acc = .error e) :
    e = .malformedNumber line := by
  induction cs generalizing col dots acc with
  | nil => exact absurd h (by simp [readNumberLoop])
  | cons c tl ih =>
    rw [readNumberLoop] at h
    split at h
    · exact ih h
    · split at h
      · split at h
        · rw [Except.error.injEq] at h
          exact h.symm
        · exact ih h
      · exact absurd h (by simp)

/-! ### Scanner-step lemmas -/

/-- On a word-start character the scanner takes the word branch: it consumes
the maximal run of word characters, uppercases it for the keyword lookup, and
emits either the keyword token (with uppercased payload) or an identifier
token with the original spelling, positioned after the lexeme. -/
theorem lexStep_word (c : Char) (rest : List Char) (line col : Nat)
    (h : (c.isAlpha || c == '_') = true) :
    lexStep (c :: rest) line col =
      (let w := (c :: rest).takeWhile wordChar
       let tok :=
         match List.lookup (pyUpper (String.mk w)) KEYWORDS with
         | Option.some tt =>
           Token.mk tt (.str (pyUpper (String.mk w))) line (col + w.length)
         | Option.none =>
           Token.mk .IDENTIFIER (.str (String.mk w)) line (col + w.length)
       .ok (Option.some tok, (c :: rest).dropWhile wordChar, line, col + w.length)) := by
  have hsp : (c == ' ') = false := word_start_ne _ h (by decide)
  have hht : (c == '\t') = false := word_start_ne _ h (by decide)
  have hhr : (c == '\r') = false := word_start_ne _ h (by decide)
  have hnl : (c == '\n') = false := word_start_ne _ h (by decide)
  have hsl : (c == '/') = false := word_start_ne _ h (by decide)
  have hsh : (c == '#') = false := word_start_ne _ h (by decide)
  have hq1 : (c == '"') = false := word_start_ne _ h (by decide)
  have hq2 : (c == squote) = false := word_start_ne _ h (by decide)
  have hdg : c.isDigit = false := word_start_not_digit h
  have hdot : (c == '.') = false := word_start_ne _ h (by decide)
  rw [lexStep]
  simp only [hsp, hht, hhr, hnl, hsl, hsh, hq1, hq2, hdg, hdot, h,
    Bool.or_self, Bool.or_false, Bool.false_or, Bool.false_and, Bool.and_false,
    if_false, if_true, Bool.false_eq_true, readWordLoop_eq, List.reverse_nil,
    List.nil_append]
  cases hk : List.lookup (pyUpper (String.mk ((c :: rest).takeWhile wordChar))) KEYWORDS <;>
    simp [hk]

/-- On a digit the scanner takes the number branch. -/
theorem lexStep_digit (c : Char) (rest : List Char) (line col : Nat)
    (h : c.isDigit = true) :
    lexStep (c :: rest) line col =
      (match readNumberLoop (c :: rest) line col 0 [] with
       | .error e => .error e
       | .ok (raw, rest', col', dots) =>
         .ok (Option.some ⟨.NUMBER,
               if dots > 0 then .float (pyFloat raw) else .int (pyInt raw),
               line, col'⟩, rest', line, col')) := by
  have hsp : (c == ' ') = false := digit_ne _ h (by decide)
  have hht : (c == '\t') = false := digit_ne _ h (by decide)
  have hhr : (c == '\r') = false := digit_ne _ h (by decide)
  have hnl : (c == '\n') = false := digit_ne _ h (by decide)
  have hsl : (c == '/') = false := digit_ne _ h (by decide)
  have hsh : (c == '#') = false := digit_ne _ h (by decide)
  have hq1 : (c == '"') = false := digit_ne _ h (by decide)
  have hq2 : (c == squote) = false := digit_ne _ h (by decide)
  rw [lexStep]
  simp only [hsp, hht, hhr, hnl, hsl, hsh, hq1, hq2, h,
    Bool.or_self, Bool.or_false, Bool.false_or, Bool.true_or, Bool.false_and,
    Bool.and_false, if_false, if_true, Bool.false_eq_true]

/-- On an opening quote the scanner takes the string branch. -/
theorem lexStep_quote (c : Char) (rest : List Char) (line col : Nat)
    (h : (c == '"' || c == squote) = true) :
    lexStep (c :: rest) line col =
      (match readStringLoop c rest line (col + 1) [] with
       | .error e => .error e
       | .ok (s, rest', col') =>
         .ok (Option.some ⟨.STRING, .str s, line, col'⟩, rest', line, col')) := by
  have hc : c = '"' ∨ c = squote := by
    rcases Bool.or_eq_true_iff.mp h with h1 | h1
    · exact Or.inl (beq_iff_eq.mp h1)
    · exact Or.inr (beq_iff_eq.mp h1)
  rcases hc with rfl | rfl <;> rfl

theorem length_dropWhile_le_self (p : Char → Bool) (l : List Char) :
    (l.dropWhile p).length ≤ l.length := by
  induction l with
  | nil => simp
  | cons c rest ih =>
    rw [List.dropWhile_cons]
    split
    · exact Nat.le_trans ih (Nat.le_succ _)
    · simp

/-- A number read that starts on a digit or dot consumes at least its first
character. -/
theorem readNumberLoop_progress {c : Char} {rest : List Char} {line col dots : Nat}
    {acc raw rest' : List Char} {col' dots' : Nat}
    (hc : numChar c = true)
    (h : readNumberLoop (c :: rest) line col dots acc = .ok (raw, rest', col', dots')) :
    rest'.length ≤ rest.length := by
  rw [readNumberLoop] at h
  cases hdg : c.isDigit with
  | true =>
    rw [if_pos hdg] at h
    have := readNumberLoop_ok h
    omega
  | false =>
    have hdot : (c == '.') = true := by
      rcases Bool.or_eq_true_iff.mp hc with h1 | h1
      · rw [hdg] at h1
        exact absurd h1 (by simp)
      · exact h1
    rw [if_neg (by simp [hdg]), if_pos hdot] at h
    split at h
    · exact absurd h (by simp)
    · have := readNumberLoop_ok h
      omega

set_option maxHeartbeats 2000000 in
/-- Full characterization of one scanner step on a nonempty input: a
successful step consumes at least one character and never emits the `EOF`
marker, and a failing step raises one of the four raise sites' errors. -/
theorem lexStep_spec (c : Char) (rest : List Char) (line col : Nat) :
    (∀ r, lexStep (c :: rest) line col = .ok r →
        r.2.1.length < (c :: rest).length ∧
        ∀ t, r.1 = Option.some t → t.type ≠ TT.EOF) ∧
    (∀ e, lexStep (c :: rest) line col = .error e →
        (∃ a b ch, e = .unexpectedChar a b ch) ∨
        (∃ a q, e = .untermStringNewline a q) ∨
        (∃ a, e = .untermStringEof a) ∨
        (∃ a, e = .malformedNumber a)) := by
  rw [lexStep]
  by_cases h1 : (c == ' ' || c == '\t' || c == '\r') = true
  · rw [if_pos h1]
    refine ⟨fun r hr => ?_, fun e he => absurd he (by simp)⟩
    rw [Except.ok.injEq] at hr
    subst hr
    exact ⟨by simp, fun t ht => by simp at ht⟩
  rw [if_neg h1]
  by_cases h2 : (c == '\n') = true
  · rw [if_pos h2]
    refine ⟨fun r hr => ?_, fun e he => absurd he (by simp)⟩
    rw [Except.ok.injEq] at hr
    subst hr
    refine ⟨by simp, fun t ht => ?_⟩
    rw [Option.some.injEq] at ht
    subst ht
    simp
  rw [if_neg h2]
  by_cases h3 : (c == '/' && rest.head? == Option.some '/') = true
  · rw [if_pos h3]
    refine ⟨fun r hr => ?_, fun e he => absurd he (by simp)⟩
    rw [Except.ok.injEq] at hr
    subst hr
    refine ⟨?_, fun t ht => by simp at ht⟩
    have hc : c = '/' := beq_iff_eq.mp (Bool.and_eq_true_iff.mp h3).1
    subst hc
    rw [skipLineComment]
    simp only [show (('/' : Char) == '\n') = false from rfl, Bool.false_eq_true,
      if_false, List.length_cons]
    have := skipLineComment_length rest (col + 1)
    omega
  rw [if_neg h3]
  by_cases h4 : (c == '#') = true
  · rw [if_pos h4]
    refine ⟨fun r hr => ?_, fun e he => absurd he (by simp)⟩
    rw [Except.ok.injEq] at hr
    subst hr
    refine ⟨?_, fun t ht => by simp at ht⟩
    have hc : c = '#' := beq_iff_eq.mp h4
    subst hc
    rw [skipLineComment]
    simp only [show (('#' : Char) == '\n') = false from rfl, Bool.false_eq_true,
      if_false, List.length_cons]
    have := skipLineComment_length rest (col + 1)
    omega
  rw [if_neg h4]
  by_cases h5 : (c == '"' || c == squote) = true
  · rw [if_pos h5]
    constructor
    · intro r hr
      split at hr
      · exact absurd hr (by simp)
      · rename_i heq
        rw [Except.ok.injEq] at hr
        subst hr
        obtain ⟨-, -, hlen⟩ := readStringLoop_ok heq
        refine ⟨by simp only [List.length_cons]; omega, fun t ht => ?_⟩
        rw [Option.some.injEq] at ht
        subst ht
        simp
    · intro e he
      split at he
      · rename_i heq
        rw [Except.error.injEq] at he
        subst he
        rcases readStringLoop_error heq with h' | h'
        · exact Or.inr (Or.inr (Or.inl ⟨_, h'⟩))
        · exact Or.inr (Or.inl ⟨_, _, h'⟩)
      · exact absurd he (by simp)
  rw [if_neg h5]
  by_cases h6 : (c.isDigit || (c == '.' && (rest.head?.map Char.isDigit).getD false)) = true
  · rw [if_pos h6]
    have hc : numChar c = true := by
      rcases Bool.or_eq_true_iff.mp h6 with hd | hd
      · simp [numChar, hd]
      · simp [numChar, (Bool.and_eq_true_iff.mp hd).1]
    constructor
    · intro r hr
      split at hr
      · exact absurd hr (by simp)
      · rename_i heq
        rw [Except.ok.injEq] at hr
        subst hr
        have := readNumberLoop_progress hc heq
        refine ⟨by simp only [List.length_cons]; omega, fun t ht => ?_⟩
        rw [Option.some.injEq] at ht
        subst ht
        simp
    · intro e he
      split at he
      · rename_i heq
        rw [Except.error.injEq] at he
        subst he
        exact Or.inr (Or.inr (Or.inr ⟨_, readNumberLoop_error heq⟩))
      · exact absurd he (by simp)
  rw [if_neg h6]
  by_cases h7 : (c.isAlpha || c == '_') = true
  · rw [if_pos h7]
    have hwc : wordChar c = true := wordChar_of_start h7
    have hlen : ((c :: rest).dropWhile wordChar).length < (c :: rest).length := by
      simp only [List.dropWhile_cons, hwc, if_true, List.length_cons]
      have := length_dropWhile_le_self wordChar rest
      omega
    constructor
    · intro r hr
      simp only [readWordLoop_eq, List.reverse_nil, List.nil_append] at hr
      split at hr
      · rename_i tt hk
        rw [Except.ok.injEq] at hr
        subst hr
        refine ⟨hlen, fun t ht => ?_⟩
        rw [Option.some.injEq] at ht
        subst ht
        exact keywords_ne_eof (lookup_mem_snd hk)
      · rw [Except.ok.injEq] at hr
        subst hr
        refine ⟨hlen, fun t ht => ?_⟩
        rw [Option.some.injEq] at ht
        subst ht
        simp
    · intro e he
      simp only [readWordLoop_eq, List.reverse_nil, List.nil_append] at he
      split at he <;> exact absurd he (by simp)
  rw [if_neg h7]
  by_cases h8 : (c == '*' && rest.head? == Option.some '*') = true
  · rw [if_pos h8]
    refine ⟨fun r hr => ?_, fun e he => absurd he (by simp)⟩
    rw [Except.ok.injEq] at hr
    subst hr
    refine ⟨by simp only [List.length_tail, List.length_cons]; omega, fun t ht => ?_⟩
    rw [Option.some.injEq] at ht
    subst ht
    simp
  rw [if_neg h8]
  by_cases h9 : (c == '=' && rest.head? == Option.some '=') = true
  · rw [if_pos h9]
    refine ⟨fun r hr => ?_, fun e he => absurd he (by simp)⟩
    rw [Except.ok.injEq] at hr
    subst hr
    refine ⟨by simp only [List.length_tail, List.length_cons]; omega, fun t ht => ?_⟩
    rw [Option.some.injEq] at ht
    subst ht
    simp
  rw [if_neg h9]
  by_cases h10 : (c == '!' && rest.head? == Option.some '=') = true
  · rw [if_pos h10]
    refine ⟨fun r hr => ?_, fun e he => absurd he (by simp)⟩
    rw [Except.ok.injEq] at hr
    subst hr
    refine ⟨by simp only [List.length_tail, List.length_cons]; omega, fun t ht => ?_⟩
    rw [Option.some.injEq] at ht
    subst ht
    simp
  rw [if_neg h10]
  by_cases h11 : (c == '>' && rest.head? == Option.some '=') = true
  · rw [if_pos h11]
    refine ⟨fun r hr => ?_, fun e he => absurd he (by simp)⟩
    rw [Except.ok.injEq] at hr
    subst hr
    refine ⟨by simp only [List.length_tail, List.length_cons]; omega, fun t ht => ?_⟩
    rw [Option.some.injEq] at ht
    subst ht
    simp
  rw [if_neg h11]
  by_cases h12 : (c == '<' && rest.head? == Option.some '=') = true
  · rw [if_pos h12]
    refine ⟨fun r hr => ?_, fun e he => absurd he (by simp)⟩
    rw [Except.ok.injEq] at hr
    subst hr
    refine ⟨by simp only [List.length_tail, List.length_cons]; omega, fun t ht => ?_⟩
    rw [Option.some.injEq] at ht
    subst ht
    simp
  rw [if_neg h12]
  by_cases h13 : (c == '+') = true
  · rw [if_pos h13]
    refine ⟨fun r hr => ?_, fun e he => absurd he (by simp)⟩
    rw [Except.ok.injEq] at hr
    subst hr
    refine ⟨by simp, fun t ht => ?_⟩
    rw [Option.some.injEq] at ht
    subst ht
    simp
  rw [if_neg h13]
  by_cases h14 : (c == '-') = true
  · rw [if_pos h14]
    refine ⟨fun r hr => ?_, fun e he => absurd he (by simp)⟩
    rw [Except.ok.injEq] at hr
    subst hr
    refine ⟨by simp, fun t ht => ?_⟩
    rw [Option.some.injEq] at ht
    subst ht
    simp
  rw [if_neg h14]
  by_cases h15 : (c == '*') = true
  · rw [if_pos h15]
    refine ⟨fun r hr => ?_, fun e he => absurd he (by simp)⟩
    rw [Except.ok.injEq] at hr
    subst hr
    refine ⟨by simp, fun t ht => ?_⟩
    rw [Option.some.injEq] at ht
    subst ht
    simp
  rw [if_neg h15]
  by_cases h16 : (c == '/') = true
  · rw [if_pos h16]
    refine ⟨fun r hr => ?_, fun e he => absurd he (by simp)⟩
    rw [Except.ok.injEq] at hr
    subst hr
    refine ⟨by simp, fun t ht => ?_⟩
    rw [Option.some.injEq] at ht
    subst ht
    simp
  rw [if_neg h16]
  by_cases h17 : (c == '%') = true
  · rw [if_pos h17]
    refine ⟨fun r hr => ?_, fun e he => absurd he (by simp)⟩
    rw [Except.ok.injEq] at hr
    subst hr
    refine ⟨by simp, fun t ht => ?_⟩
    rw [Option.some.injEq] at ht
    subst ht
    simp
  rw [if_neg h17]
  by_cases h18 : (c == '>') = true
  · rw [if_pos h18]
    refine ⟨fun r hr => ?_, fun e he => absurd he (by simp)⟩
    rw [Except.ok.injEq] at hr
    subst hr
    refine ⟨by simp, fun t ht => ?_⟩
    rw [Option.some.injEq] at ht
    subst ht
    simp
  rw [if_neg h18]
  by_cases h19 : (c == '<') = true
  · rw [if_pos h19]
    refine ⟨fun r hr => ?_, fun e he => absurd he (by simp)⟩
    rw [Except.ok.injEq] at hr
    subst hr
    refine ⟨by simp, fun t ht => ?_⟩
    rw [Option.some.injEq] at ht
    subst ht
    simp
  rw [if_neg h19]
  by_cases h20 : (c == '(') = true
  · rw [if_pos h20]
    refine ⟨fun r hr => ?_, fun e he => absurd he (by simp)⟩
    rw [Except.ok.injEq] at hr
    subst hr
    refine ⟨by simp, fun t ht => ?_⟩
    rw [Option.some.injEq] at ht
    subst ht
    simp
  rw [if_neg h20]
  by_cases h21 : (c == ')') = true
  · rw [if_pos h21]
    refine ⟨fun r hr => ?_, fun e he => absurd he (by simp)⟩
    rw [Except.ok.injEq] at hr
    subst hr
    refine ⟨by simp, fun t ht => ?_⟩
    rw [Option.some.injEq] at ht
    subst ht
    simp
  rw [if_neg h21]
  refine ⟨fun r hr => absurd hr (by simp), fun e he => ?_⟩
  rw [Except.error.injEq] at he
  subst he
  exact Or.inl ⟨_, _, _, rfl⟩

/-- Every successful scanner step consumes at least one character. -/
theorem lexStep_shrinks {c : Char} {rest : List Char} {line col : Nat}
    {r : Option Token × List Char × Nat × Nat}
    (h : lexStep (c :: rest) line col = .ok r) :
    r.2.1.length < (c :: rest).length :=
  ((lexStep_spec c rest line col).1 r h).1

/-- The scanning loop never emits the `EOF` marker itself. -/
theorem lexStep_no_eof {c : Char} {rest : List Char} {line col : Nat}
    {t : Token} {rest' : List Char} {line' col' : Nat}
    (h : lexStep (c :: rest) line col = .ok (Option.some t, rest', line', col')) :
    t.type ≠ TT.EOF :=
  ((lexStep_spec c rest line col).1 _ h).2 t rfl

/-- A failing scanner step raises one of the lexer's four raise sites. -/
theorem lexStep_error_classify {c : Char} {rest : List Char} {line col : Nat}
    {e : LexError} (h : lexStep (c :: rest) line col = .error e) :
    (∃ a b ch, e = .unexpectedChar a b ch) ∨
    (∃ a q, e = .untermStringNewline a q) ∨
    (∃ a, e = .untermStringEof a) ∨
    (∃ a, e = .malformedNumber a) :=
  (lexStep_spec c rest line col).2 e h

/-! ### Scanning-loop lemmas -/

/-- With fuel exceeding the input length, a failing scan raises one of the
four raise sites' errors — in particular fuel never runs out. -/
theorem lexLoop_error_classify {fuel : Nat} {cs : List Char} {line col : Nat}
    {e : LexError} (hf : cs.length < fuel)
    (h : lexLoop fuel cs line col = .error e) :
    (∃ a b ch, e = .unexpectedChar a b ch) ∨
    (∃ a q, e = .untermStringNewline a q) ∨
    (∃ a, e = .untermStringEof a) ∨
    (∃ a, e = .malformedNumber a) := by
  induction fuel generalizing cs line col with
  | zero => omega
  | succ fuel ih =>
    cases cs with
    | nil =>
      rw [lexLoop] at h
      exact absurd h (by simp)
    | cons c rest =>
      rw [lexLoop] at h
      cases hs : lexStep (c :: rest) line col with
      | error e' =>
        rw [hs] at h
        have he : e' = e := by simpa using h
        subst he
        exact lexStep_error_classify hs
      | ok r =>
        obtain ⟨emitted, rest', line', col'⟩ := r
        rw [hs] at h
        dsimp only [] at h
        cases hl : lexLoop fuel rest' line' col' with
        | error e2 =>
          rw [hl] at h
          have he : e2 = e := by simpa using h
          subst he
          have hlen : rest'.length < (c :: rest).length := lexStep_shrinks hs
          have : rest'.length < fuel := by
            simp only [List.length_cons] at hlen hf
            omega
          exact ih this hl
        | ok ts =>
          rw [hl] at h
          exact absurd h (by simp)

/-- Every successful scan returns a nonempty token list whose final token —
and no other — is the `EOF` end marker. -/
theorem lexLoop_ok_shape {fuel : Nat} {cs : List Char} {line col : Nat}
    {ts : List Token} (h : lexLoop fuel cs line col = .ok ts) :
    ∃ pre l' c', ts = pre ++ [⟨TT.EOF, .none, l', c'⟩] ∧
      ∀ t ∈ pre, t.type ≠ TT.EOF := by
  induction fuel generalizing cs line col ts with
  | zero =>
    rw [lexLoop] at h
    exact absurd h (by simp)
  | succ fuel ih =>
    cases cs with
    | nil =>
      rw [lexLoop] at h
      rw [Except.ok.injEq] at h
      subst h
      exact ⟨[], line, col, rfl, by simp⟩
    | cons c rest =>
      rw [lexLoop] at h
      cases hs : lexStep (c :: rest) line col with
      | error e' =>
        rw [hs] at h
        exact absurd h (by simp)
      | ok r =>
        obtain ⟨emitted, rest', line', col'⟩ := r
        rw [hs] at h
        dsimp only [] at h
        cases hl : lexLoop fuel rest' line' col' with
        | error e2 =>
          rw [hl] at h
          exact absurd h (by simp)
        | ok ts' =>
          rw [hl] at h
          have hts : emitted.toList ++ ts' = ts := by simpa using h
          subst hts
          obtain ⟨pre, l', c', rfl, hpre⟩ := ih hl
          refine ⟨emitted.toList ++ pre, l', c', by simp, ?_⟩
          intro t ht
          rcases List.mem_append.mp ht with hm | hm
          · cases emitted with
            | none => simp at hm
            | some tok =>
              simp only [Option.toList_some, List.mem_singleton] at hm
              subst hm
              exact lexStep_no_eof hs
          · exact hpre t hm

/-! ### Number-lexeme lemmas -/

theorem takeWhile_append_all {p : Char → Bool} {l : List Char}
    (h : ∀ c ∈ l, p c = true) (l2 : List Char) :
    (l ++ l2).takeWhile p = l ++ l2.takeWhile p ∧
    (l ++ l2).dropWhile p = l2.dropWhile p := by
  induction l with
  | nil => simp
  | cons c rest ih =>
    have hc : p c = true := h c (by simp)
    have ihr := ih (fun d hd => h d (by simp [hd]))
    simp [List.takeWhile_cons, List.dropWhile_cons, hc, ihr.1, ihr.2]

/-- Python `float` of a digit string with a single trailing dot is the
integer value of the digits. -/
theorem pyFloat_trailing_dot {ds : List Char} (h : ∀ c ∈ ds, c.isDigit = true) :
    pyFloat (ds ++ ['.']) = ((pyInt ds : Int) : ℚ) := by
  unfold pyFloat
  have hp : ∀ c ∈ ds, (c != '.') = true := by
    intro c hc
    have := digit_ne '.' (h c hc) (by decide)
    simp [bne, this]
  obtain ⟨ht, hd⟩ := takeWhile_append_all hp ['.']
  rw [ht, hd]
  simp [List.takeWhile_cons, List.dropWhile_cons, pyInt]

/-- `_read_number` on digits followed by a single trailing dot consumes the
whole lexeme and succeeds with one dot counted. -/
theorem readNumberLoop_digits {ds : List Char} (h : ∀ c ∈ ds, c.isDigit = true)
    (line col : Nat) (acc : List Char) :
    readNumberLoop (ds ++ ['.']) line col 0 acc =
      .ok (acc.reverse ++ ds ++ ['.'], [], col + ds.length + 1, 1) := by
  induction ds generalizing col acc with
  | nil =>
    rw [List.nil_append, readNumberLoop,
      if_neg (by simp : ¬((('.' : Char).isDigit) = true)),
      if_pos (by decide : (('.' : Char) == '.') = true),
      if_neg (by omega : ¬(0 ≥ 1)), readNumberLoop]
    simp
  | cons d ds' ih =>
    rw [List.cons_append, readNumberLoop, if_pos (h d (by simp)),
      ih (fun c hc => h c (by simp [hc]))]
    simp only [List.reverse_cons, List.append_assoc, List.singleton_append,
      List.length_cons, Except.ok.injEq, Prod.mk.injEq]
    refine ⟨by simp, trivial, by omega, trivial⟩

/-- `_read_number` fails exactly when the maximal digit-and-dot prefix of the
remaining input brings the dot count to two. -/
theorem readNumberLoop_error_iff (cs : List Char) (line col dots : Nat)
    (acc : List Char) (hd : dots ≤ 1) :
    (∃ e, readNumberLoop cs line col dots acc = .error e) ↔
      2 ≤ dots + (cs.takeWhile numChar).countP (fun c => c == '.') := by
  induction cs generalizing col dots acc with
  | nil =>
    simp only [readNumberLoop, List.takeWhile_nil, List.countP_nil]
    constructor
    · rintro ⟨e, he⟩
      exact absurd he (by simp)
    · omega
  | cons c rest ih =>
    rw [readNumberLoop]
    by_cases hdg : c.isDigit = true
    · have hnc : numChar c = true := by simp [numChar, hdg]
      have hne : (c == '.') = false := digit_ne '.' hdg (by decide)
      rw [if_pos hdg]
      rw [ih (col + 1) dots (c :: acc) hd]
      simp [List.takeWhile_cons, hnc, List.countP_cons, hne]
    · rw [if_neg hdg]
      by_cases hdot : (c == '.') = true
      · have hnc : numChar c = true := by simp [numChar, hdot]
        rw [if_pos hdot]
        by_cases h1 : dots ≥ 1
        · rw [if_pos h1]
          simp only [List.takeWhile_cons, hnc, if_true, List.countP_cons, hdot]
          constructor
          · intro
            omega
          · intro
            exact ⟨.malformedNumber line, rfl⟩
        · rw [if_neg h1]
          have h0 : dots = 0 := by omega
          subst h0
          rw [ih (col + 1) 1 (c :: acc) (by omega)]
          simp only [List.takeWhile_cons, hnc, if_true, List.countP_cons, hdot]
          omega
      · have hnc : numChar c = false := by
          simp [numChar, hdg, hdot]
        rw [if_neg hdot]
        simp only [List.takeWhile_cons, hnc, Bool.false_eq_true, if_false,
          List.countP_nil]
        constructor
        · rintro ⟨e, he⟩
          exact absurd he (by simp)
        · omega

/-- Re-lexing any string that starts with the pretty-printer's
`ProgramNode` header stops with an unexpected-character error at the `[` of
the body listing: line 2, column 3. -/
theorem lexLoop_bracket (tail : List Char) :
    lexLoop (('P' :: 'r' :: 'o' :: 'g' :: 'r' :: 'a' :: 'm' :: 'N' :: 'o' ::
        'd' :: 'e' :: '\n' :: ' ' :: ' ' :: '[' :: tail).length + 1)
      ('P' :: 'r' :: 'o' :: 'g' :: 'r' :: 'a' :: 'm' :: 'N' :: 'o' ::
        'd' :: 'e' :: '\n' :: ' ' :: ' ' :: '[' :: tail) 1 1 =
      .error (.unexpectedChar 2 3 '[') := rfl

/-! ### The claims -/

/-- C1: at interpreter construction the root environment holds exactly five
bindings — the loop counter `LOOPCOUNT` initialized to the integer 0, the two
boolean constants `TRUE`/`FALSE`, and two floating-point mathematical
constants — and the REPL `.vars` listing filter excludes exactly the two
boolean constants while keeping the numeric constants (and the counter). -/
theorem claim_C1 :
    interpreterInitEnv.length = 5 ∧
    List.lookup ("LOOPCOUNT") interpreterInitEnv = Option.some (.int 0) ∧
    interpreterInitEnv.countP (fun kv => kv.2.isBool) = 2 ∧
    interpreterInitEnv.countP (fun kv => kv.2.isFloat) = 2 ∧
    List.lookup ("TRUE") interpreterInitEnv = Option.some (.bool true) ∧
    List.lookup ("FALSE") interpreterInitEnv = Option.some (.bool false) ∧
    replVarsFilter (allVarsRoot interpreterInitEnv) =
      [("LOOPCOUNT", .int 0),
       ("PI", .float (3141592653589793 / 10 ^ 15 : ℚ)),
       ("E", .float (2718281828459045 / 10 ^ 15 : ℚ))] :=
  ⟨rfl, rfl, rfl, rfl, rfl, rfl, rfl⟩

/-- C2 (amended): the round trip fails — the AST pretty-printer emits a
diagnostic tree dump, not FranzCode source, and re-lexing its output of any
parsed program always raises the unexpected-character lex error at the `[`
of the body listing, so re-parsing never reproduces the original tree. -/
theorem claim_C2 (body : List Node) (line : Nat) :
    compileSource (printNode (.programNode body line) 0) =
      .error (.lex (.unexpectedChar 2 3 '[')) := by
  have hp : printNode (.programNode body line) 0 =
      pad 0 ++ "ProgramNode\n" ++ pad 0 ++ "  [body]\n" ++ printNodes body (0 + 2) := by
    rw [printNode]
  have hdata : (printNode (.programNode body line) 0).data =
      'P' :: 'r' :: 'o' :: 'g' :: 'r' :: 'a' :: 'm' :: 'N' :: 'o' ::
        'd' :: 'e' :: '\n' :: ' ' :: ' ' :: '[' ::
        ('b' :: 'o' :: 'd' :: 'y' :: ']' :: '\n' :: (printNodes body (0 + 2)).data) := by
    rw [hp]
    simp only [String.data_append, List.append_assoc]
    rfl
  unfold compileSource tokenize
  rw [hdata, lexLoop_bracket]

/-- C2 counterexample: for the randomness-free program `SAY 1`, re-parsing
the pretty-printed output does not reproduce the AST — it fails in the lexer
before any tree is built. -/
theorem claim_C2_counterexample :
    compileSource ("SAY 1") =
      .ok (.programNode [.sayNode (.numberNode (.int 1) 1) 1] 0) ∧
    printNode (.programNode [.sayNode (.numberNode (.int 1) 1) 1] 0) 0 =
      "ProgramNode\n  [body]\n    SayNode\n      expr:\n        NumberNode(1)\n" ∧
    compileSource ("ProgramNode\n  [body]\n    SayNode\n      expr:\n        NumberNode(1)\n") =
      .error (.lex (.unexpectedChar 2 3 '[')) := by
  refine ⟨rfl, ?_, rfl⟩
  simp [printNode, printNodes, pad, pyRepr]
  rfl

/-- C3 (amended): `tokenize` raises a `LexError` exactly in the three
situations — unterminated string (at a newline or at end of input),
malformed number (second dot), or unrecognized character — and on other
input returns a token list; the error always carries the line in its
message, but a column only in the unrecognized-character case. -/
theorem claim_C3 :
    (∀ (src : String) (e : LexError), tokenize src = .error e →
        (∃ a b ch, e = .unexpectedChar a b ch) ∨
        (∃ a q, e = .untermStringNewline a q) ∨
        (∃ a, e = .untermStringEof a) ∨
        (∃ a, e = .malformedNumber a)) ∧
    (∀ (src : String) (e : LexError), tokenize src = .error e →
        e.lineCarried.isSome = true) ∧
    tokenize "\"x" = .error (.untermStringEof 1) ∧
    tokenize "\"a\nb\"" = .error (.untermStringNewline 1 '"') ∧
    tokenize "1..2" = .error (.malformedNumber 1) ∧
    tokenize "@" = .error (.unexpectedChar 1 1 '@') ∧
    tokenize "SET x TO 3" = .ok
      [⟨.SET, .str ("SET"), 1, 4⟩, ⟨.IDENTIFIER, .str ("x"), 1, 6⟩,
       ⟨.TO, .str ("TO"), 1, 9⟩, ⟨.NUMBER, .int 3, 1, 11⟩,
       ⟨.EOF, .none, 1, 11⟩] := by
  have hcl : ∀ (src : String) (e : LexError), tokenize src = .error e →
      (∃ a b ch, e = .unexpectedChar a b ch) ∨
      (∃ a q, e = .untermStringNewline a q) ∨
      (∃ a, e = .untermStringEof a) ∨
      (∃ a, e = .malformedNumber a) :=
    fun _ e h => lexLoop_error_classify (Nat.lt_succ_self _) h
  refine ⟨hcl, fun src e h => ?_, rfl, rfl, rfl, rfl, rfl⟩
  rcases hcl src e h with ⟨a, b, ch, rfl⟩ | ⟨a, q, rfl⟩ | ⟨a, rfl⟩ | ⟨a, rfl⟩ <;> rfl

/-- Witness for C3: the classification applied to the unrecognized-character
input `@`. -/
theorem claim_C3_witness :
    (∃ a b ch, LexError.unexpectedChar 1 1 '@' = .unexpectedChar a b ch) ∨
    (∃ a q, LexError.unexpectedChar 1 1 '@' = .untermStringNewline a q) ∨
    (∃ a, LexError.unexpectedChar 1 1 '@' = .untermStringEof a) ∨
    (∃ a, LexError.unexpectedChar 1 1 '@' = .malformedNumber a) :=
  claim_C3.1 ("@") (.unexpectedChar 1 1 '@') rfl

/-- C3 counterexample: the claim says every `LexError` carries line, column
and message; the unterminated-string error raised for the input `"x` carries
a line and a message but no column — its message text contains none. -/
theorem claim_C3_counterexample :
    tokenize "\"x" = .error (.untermStringEof 1) ∧
    (LexError.untermStringEof 1).colCarried = Option.none ∧
    (LexError.untermStringEof 1).message =
      "[Line 1] Unterminated string at end of file." :=
  ⟨rfl, rfl, rfl⟩

/-- C4: the expression grammar's precedence ladder, exhibited on the parsed
trees: `*` binds above `+`; comparison sits above additive; `AND`/`OR` sit
lowest, associate to the left and always carry both operand branches; unary
minus and `NOT` bind above the multiplicative and comparison levels;
parentheses group; `%` and `**` share the multiplicative level,
left-associated. -/
theorem claim_C4 :
    compileSource "SAY 1 + 2 * 3" = .ok (.programNode [.sayNode
      (.binOpNode (.numberNode (.int 1) 1) (.str ("+"))
        (.binOpNode (.numberNode (.int 2) 1) (.str ("*")) (.numberNode (.int 3) 1) 1) 1) 1] 0) ∧
    compileSource "SAY 1 + 2 == 3" = .ok (.programNode [.sayNode
      (.compareNode (.binOpNode (.numberNode (.int 1) 1) (.str ("+")) (.numberNode (.int 2) 1) 1)
        (.str ("==")) (.numberNode (.int 3) 1) 1) 1] 0) ∧
    compileSource "SAY 1 == 2 AND 3 OR 4" = .ok (.programNode [.sayNode
      (.logicNode
        (.logicNode (.compareNode (.numberNode (.int 1) 1) (.str ("==")) (.numberNode (.int 2) 1) 1)
          ("and") (.numberNode (.int 3) 1) 1)
        ("or") (.numberNode (.int 4) 1) 1) 1] 0) ∧
    compileSource "SAY - 2 ** 3" = .ok (.programNode [.sayNode
      (.binOpNode (.unaryOpNode ("-") (.numberNode (.int 2) 1) 1) (.str ("**"))
        (.numberNode (.int 3) 1) 1) 1] 0) ∧
    compileSource "SAY NOT 1 == 2" = .ok (.programNode [.sayNode
      (.compareNode (.unaryOpNode ("not") (.numberNode (.int 1) 1) 1) (.str ("=="))
        (.numberNode (.int 2) 1) 1) 1] 0) ∧
    compileSource "SAY (1 + 2) * 3" = .ok (.programNode [.sayNode
      (.binOpNode (.binOpNode (.numberNode (.int 1) 1) (.str ("+")) (.numberNode (.int 2) 1) 1)
        (.str ("*")) (.numberNode (.int 3) 1) 1) 1] 0) ∧
    compileSource "SAY 1 * 2 % 3 ** 4" = .ok (.programNode [.sayNode
      (.binOpNode
        (.binOpNode
          (.binOpNode (.numberNode (.int 1) 1) (.str ("*")) (.numberNode (.int 2) 1) 1)
          (.str ("%")) (.numberNode (.int 3) 1) 1)
        (.str ("**")) (.numberNode (.int 4) 1) 1) 1] 0) :=
  ⟨rfl, rfl, rfl, rfl, rfl, rfl, rfl⟩

/-- C5: parsing is invariant under removing `NEWLINE` tokens — the parser
strips them before any dispatch, so the result on any token sequence equals
the result on the sequence with every newline token removed. -/
theorem claim_C5 (tokens : List Token) :
    parseTokens tokens =
      parseTokens (tokens.filter (fun t => t.type != TT.NEWLINE)) := by
  unfold parseTokens
  have h : stripNewlines (tokens.filter (fun t => t.type != TT.NEWLINE)) =
      stripNewlines tokens := by
    unfold stripNewlines
    rw [List.filter_filter]
    simp
  rw [h]

/-- C6: every successful tokenization is nonempty, ends in the `EOF`
end-marker token, and contains no earlier `EOF` token. -/
theorem claim_C6 (src : String) (ts : List Token) (h : tokenize src = .ok ts) :
    ts ≠ [] ∧
    ts.getLast?.map Token.type = Option.some TT.EOF ∧
    ts.dropLast.all (fun t => t.type != TT.EOF) = true := by
  obtain ⟨pre, l', c', rfl, hpre⟩ := lexLoop_ok_shape h
  refine ⟨by simp, ?_, ?_⟩
  · rw [List.getLast?_concat]
    rfl
  · rw [List.dropLast_concat, List.all_eq_true]
    intro t ht
    simp only [bne_iff_ne, ne_eq]
    exact hpre t ht

/-- Witness for C6 at the source `SAY 1`. -/
theorem claim_C6_witness :
    ([⟨TT.SAY, .str ("SAY"), 1, 4⟩, ⟨TT.NUMBER, .int 1, 1, 6⟩,
      ⟨TT.EOF, .none, 1, 6⟩] : List Token) ≠ [] ∧
    ([⟨TT.SAY, .str ("SAY"), 1, 4⟩, ⟨TT.NUMBER, .int 1, 1, 6⟩,
      ⟨TT.EOF, .none, 1, 6⟩] : List Token).getLast?.map Token.type =
      Option.some TT.EOF ∧
    ([⟨TT.SAY, .str ("SAY"), 1, 4⟩, ⟨TT.NUMBER, .int 1, 1, 6⟩,
      ⟨TT.EOF, .none, 1, 6⟩] : List Token).dropLast.all
        (fun t => t.type != TT.EOF) = true :=
  claim_C6 ("SAY 1") _ rfl

/-- C7: a maximal word lexeme is looked up uppercased in the fixed keyword
table; a hit emits the keyword token (uppercased payload), a miss emits an
identifier token preserving the original casing — so keywords are recognized
case-insensitively while identifiers stay case-sensitive. -/
theorem claim_C7 :
    (∀ (c : Char) (rest : List Char) (line col : Nat),
        (c.isAlpha || c == '_') = true →
        lexStep (c :: rest) line col =
          (let w := (c :: rest).takeWhile wordChar
           let tok :=
             match List.lookup (pyUpper (String.mk w)) KEYWORDS with
             | Option.some tt =>
               Token.mk tt (.str (pyUpper (String.mk w))) line (col + w.length)
             | Option.none =>
               Token.mk .IDENTIFIER (.str (String.mk w)) line (col + w.length)
           .ok (Option.some tok, (c :: rest).dropWhile wordChar, line, col + w.length))) ∧
    tokenize "say" = .ok [⟨.SAY, .str ("SAY"), 1, 4⟩, ⟨.EOF, .none, 1, 4⟩] ∧
    tokenize "Foo" = .ok [⟨.IDENTIFIER, .str ("Foo"), 1, 4⟩, ⟨.EOF, .none, 1, 4⟩] ∧
    tokenize "foo" = .ok [⟨.IDENTIFIER, .str ("foo"), 1, 4⟩, ⟨.EOF, .none, 1, 4⟩] :=
  ⟨lexStep_word, rfl, rfl, rfl⟩

/-- Witness for C7: the word branch applied to the lowercase keyword `say`. -/
theorem claim_C7_witness :
    lexStep ('s' :: 'a' :: 'y' :: []) 1 1 =
      .ok (Option.some ⟨TT.SAY, .str ("SAY"), 1, 4⟩, [], 1, 4) :=
  (claim_C7.1 's' ('a' :: 'y' :: []) 1 1 (by decide)).trans (by rfl)

/-- C8: tokenization is deterministic — two runs of `tokenize` on the same
source string return the same outcome, token for token. -/
theorem claim_C8 (src : String) (r1 r2 : Except LexError (List Token))
    (h1 : tokenize src = r1) (h2 : tokenize src = r2) : r1 = r2 := by
  rw [← h1, ← h2]

/-- Witness for C8 at the source `SAY 1`. -/
theorem claim_C8_witness :
    tokenize "SAY 1" = .ok [⟨TT.SAY, .str ("SAY"), 1, 4⟩,
      ⟨TT.NUMBER, .int 1, 1, 6⟩, ⟨TT.EOF, .none, 1, 6⟩] :=
  claim_C8 ("SAY 1") (tokenize ("SAY 1"))
    (.ok [⟨TT.SAY, .str ("SAY"), 1, 4⟩, ⟨TT.NUMBER, .int 1, 1, 6⟩,
      ⟨TT.EOF, .none, 1, 6⟩]) rfl rfl

/-- C9: multi-character lexemes record the scanner position immediately
after their last consumed character — a word token's column is the start
column plus the word length, a string token's column is just past the
closing quote (start of contents plus length plus one), a number token's
column is the start column plus the lexeme length, and `abc` lexes to a
single identifier at column 4. -/
theorem claim_C9 :
    (∀ (c : Char) (rest : List Char) (line col : Nat),
        (c.isAlpha || c == '_') = true →
        ∃ t, lexStep (c :: rest) line col =
            .ok (Option.some t, (c :: rest).dropWhile wordChar, line,
                 col + ((c :: rest).takeWhile wordChar).length) ∧
          t.line = line ∧ t.col = col + ((c :: rest).takeWhile wordChar).length ∧
          1 ≤ ((c :: rest).takeWhile wordChar).length) ∧
    (∀ (quote : Char) (cs : List Char) (line col : Nat) (s : String)
        (rest : List Char) (col' : Nat),
        readStringLoop quote cs line col [] = .ok (s, rest, col') →
        col' = col + s.length + 1) ∧
    (∀ (cs : List Char) (line col : Nat) (raw rest : List Char) (col' dots : Nat),
        readNumberLoop cs line col 0 [] = .ok (raw, rest, col', dots) →
        col' = col + raw.length) ∧
    tokenize "abc" = .ok [⟨.IDENTIFIER, .str ("abc"), 1, 4⟩, ⟨.EOF, .none, 1, 4⟩] ∧
    tokenize "\"ab\"" = .ok [⟨.STRING, .str ("ab"), 1, 5⟩, ⟨.EOF, .none, 1, 5⟩] ∧
    tokenize "12 **" = .ok [⟨.NUMBER, .int 12, 1, 3⟩, ⟨.POWER, .str ("**"), 1, 6⟩,
      ⟨.EOF, .none, 1, 6⟩] := by
  refine ⟨?_, ?_, ?_, rfl, rfl, rfl⟩
  · intro c rest line col h
    rw [lexStep_word c rest line col h]
    refine ⟨_, rfl, ?_, ?_, ?_⟩
    · cases List.lookup (pyUpper (String.mk ((c :: rest).takeWhile wordChar))) KEYWORDS <;> rfl
    · cases List.lookup (pyUpper (String.mk ((c :: rest).takeWhile wordChar))) KEYWORDS <;> rfl
    · simp [List.takeWhile_cons, wordChar_of_start h]
  · intro quote cs line col s rest col' h
    obtain ⟨h1, h2, -⟩ := readStringLoop_ok h
    simp only [List.length_nil] at h2
    omega
  · intro cs line col raw rest col' dots h
    obtain ⟨h1, h2, -⟩ := readNumberLoop_ok h
    simp only [List.length_nil] at h2
    omega

/-- Witness for C9: the string-position clause applied to the contents `a`
of a double-quoted literal read from column 2. -/
theorem claim_C9_witness : (4 : Nat) = 2 + ("a" : String).length + 1 :=
  claim_C9.2.1 '"' ('a' :: '"' :: []) 1 2 "a" [] 4 rfl

/-- C10: a number lexeme of digits followed by a single trailing dot lexes
as a floating-point `NUMBER` token (e.g. `1.` is the float 1.0 followed by
`EOF`), and the malformed-number error occurs exactly when a second dot
appears within one number lexeme. -/
theorem claim_C10 :
    tokenize "1." = .ok [⟨.NUMBER, .float 1, 1, 3⟩, ⟨.EOF, .none, 1, 3⟩] ∧
    (∀ (ds : List Char), ds ≠ [] → (∀ c ∈ ds, c.isDigit = true) →
        tokenize (String.mk (ds ++ ['.'])) =
          .ok [⟨.NUMBER, .float ((pyInt ds : Int) : ℚ), 1, ds.length + 2⟩,
               ⟨.EOF, .none, 1, ds.length + 2⟩]) ∧
    (∀ (cs : List Char) (line col : Nat),
        (∃ e, readNumberLoop cs line col 0 [] = .error e) ↔
          2 ≤ (cs.takeWhile numChar).countP (fun c => c == '.')) := by
  have h1v : pyFloat ('1' :: '.' :: []) = (1 : ℚ) := by
    simp [pyFloat, pyInt]
  refine ⟨?_, ?_, ?_⟩
  · have h1 : tokenize "1." = .ok [⟨.NUMBER, .float (pyFloat ('1' :: '.' :: [])), 1, 3⟩,
        ⟨.EOF, .none, 1, 3⟩] := rfl
    rw [h1, h1v]
  · intro ds hne hdig
    cases ds with
    | nil => exact absurd rfl hne
    | cons d ds' =>
      show lexLoop (((d :: ds') ++ ['.']).length + 1) ((d :: ds') ++ ['.']) 1 1 = _
      have hlen : ((d :: ds') ++ ['.']).length + 1 = (ds'.length + 2) + 1 := by
        simp
      rw [hlen, List.cons_append, lexLoop,
        lexStep_digit d (ds' ++ ['.']) 1 1 (hdig d (by simp)),
        show d :: (ds' ++ ['.']) = (d :: ds') ++ ['.'] from rfl,
        readNumberLoop_digits hdig 1 1 []]
      dsimp only []
      rw [lexLoop]
      simp only [List.reverse_nil, List.nil_append, List.length_cons,
        Option.toList_some, List.singleton_append]
      rw [if_pos (by omega : 1 > 0), pyFloat_trailing_dot hdig]
      have harith : 1 + (ds'.length + 1) + 1 = ds'.length + 1 + 2 := by omega
      rw [harith]
  · intro cs line col
    simpa using readNumberLoop_error_iff cs line col 0 [] (by omega)

/-- Witness for C10: the trailing-dot clause applied to the digits `42`. -/
theorem claim_C10_witness :
    tokenize (String.mk (['4', '2'] ++ ['.'])) =
      .ok [⟨.NUMBER, .float ((pyInt ['4', '2'] : Int) : ℚ), 1, (['4', '2'] : List Char).length + 2⟩,
           ⟨.EOF, .none, 1, (['4', '2'] : List Char).length + 2⟩] :=
  claim_C10.2.1 ['4', '2'] (by decide) (by decide)

end Franz
